import Mathlib

/-!
Verification of the request-dispatch core of the `dataclass_rest` library
(`base.py`): route compilation (`rest` and friends), argument binding and URL
templating, query-parameter filtering, the request dispatcher and the
error-handler table of `BaseClient`.

The embedding is shallow: Python objects that flow through the code under
verification are modelled by the inductive `Value`; Python class objects used
as type markers are modelled by `Cls`; exceptions are modelled by
`Except Raised` results, where `Raised` records the exception and its
`__cause__` (the `raise ... from ...` chain).  External collaborators (the
`requests` session and the `dataclass_factory` serializer) are modelled from
the contracts the specification gives them, as noted on each definition.
-/

namespace DataclassRest

/-- Python class objects that appear as values or type markers in the code:
either a plain named class (such as a dataclass used as a body or result
type) or the `Any` marker used as the default annotation. -/
inductive Cls where
  | any
  | named (name : String)
deriving DecidableEq, Repr

/-- Python values flowing through the dispatcher: `None` and the JSON
primitives, plus the two non-JSON objects the code compares values against —
the receiver (`self`, modelled by `client`) and class objects (`cls`).
Mappings appear one level up, as `List (String × Value)`, which is the only
level of structure the code under verification manipulates. -/
inductive Value where
  | none
  | str (s : String)
  | int (n : Int)
  | bool (b : Bool)
  | client
  | cls (c : Cls)
deriving DecidableEq, Repr

/-- Python `str(value)` for the values a URL placeholder can hold.  Faithful
for the primitives the spec quantifies over; container and object values get
schematic renderings, which no claim depends on. -/
def Value.pyStr : Value → String
  | .none => "None"
  | .str s => s
  | .int n => toString n
  | .bool b => if b then "True" else "False"
  | .client => "<client>"
  | .cls _ => "<class>"

/-- Exceptions raised by the code under verification.  `ApiError` and its
subclass `NotFoundError` are defined in `base.py`; `typeError` and `keyError`
model the Python builtins raised by `getcallargs` and `str.format`;
`requestException` and `jsonDecodeError` model the two library exceptions the
dispatcher catches. -/
inductive PyErr where
  | apiError (msg : String)
  | notFoundError
  | typeError (msg : String)
  | keyError (name : String)
  | requestException (info : String)
  | jsonDecodeError (info : String)
deriving DecidableEq, Repr

/-- Whether the exception is an `ApiError` in the class hierarchy of
`base.py` (`NotFoundError` subclasses `ApiError`). -/
def PyErr.isApiError : PyErr → Bool
  | .apiError _ => true
  | .notFoundError => true
  | _ => false

/-- A raised exception together with its `__cause__` (set by
`raise ... from error`). -/
structure Raised where
  err : PyErr
  cause : Option PyErr
deriving DecidableEq, Repr

/-- Modelled from the spec: the Transport response object.  `ok` is the 2xx
flag, `jsonBody` is the result of `.json()` — either the parsed JSON value or
a JSON decode failure. -/
structure Response where
  ok : Bool
  status_code : Nat
  jsonBody : Except String Value

/-- Modelled from the spec: the string representation of a response that the
base `ApiError` carries (the `repr` of a `requests.Response`). -/
def str_response (r : Response) : String :=
  "<Response [" ++ toString r.status_code ++ "]>"

/-- An error handler stored in the table: a single-argument callable taking
the response; the registered handlers raise. -/
def Handler : Type := Response → Except Raised Value

/-- Modelled from the spec: the outcome of one Transport call — either a
response object, or a connection-level failure (`RequestException`). -/
inductive TransportOutcome where
  | resp (r : Response)
  | connError (info : String)

/-- Modelled from the spec: the Transport collaborator
(`session.request(method=, url=, params=, json=)`) as a pure function of one
call. -/
def Session : Type :=
  String → String → Option (List (String × Value)) → Value → TransportOutcome

/-- Modelled from the spec: the Serializer collaborator
(`dataclass_factory.Factory`) with its `load`/`dump` contract at plain class
types; `load` may fail, failures propagate as raised exceptions. -/
structure Factory where
  load : Value → Cls → Except Raised Value
  dump : Value → Cls → Value

/-- Association-list lookup with Python `dict.get` semantics (first match). -/
def lookupStr (l : List (String × α)) (k : String) : Option α :=
  (l.find? (fun p => p.1 == k)).map (fun p => p.2)

/-- Python `str.rstrip("/")`: drop all trailing slash characters. -/
def rstrip_slash (s : String) : String :=
  String.mk ((s.toList.reverse.dropWhile (fun ch => ch == '/')).reverse)

/-- The client state: `base_url`, the transport session, the error-handler
table (a dict keyed by `(method, status_code)`, modelled as an association
list where the first match wins) and the serializer factory
(`base.py` lines 86-92). -/
structure BaseClient where
  base_url : String
  session : Session
  error_handlers : List ((String × Nat) × Handler)
  factory : Factory

/-- `BaseClient._handle_404`: unconditionally raises `NotFoundError`
(`base.py` lines 97-98). -/
def _handle_404 : Handler := fun _ => Except.error ⟨.notFoundError, Option.none⟩

/-- `BaseClient.__init__` (`base.py` lines 86-92): strips trailing slashes
from the base URL and seeds the handler table with the wildcard 404 entry.
The factory is a parameter because `__init__` obtains it from the
overridable `_init_factory`. -/
def BaseClient.init (base_url : String) (session : Session) (factory : Factory) :
    BaseClient :=
  { base_url := rstrip_slash base_url
    session := session
    error_handlers := [(("", 404), _handle_404)]
    factory := factory }

/-- `dict.get` on the error-handler table. -/
def tbl_get (tbl : List ((String × Nat) × Handler)) (k : String × Nat) :
    Option Handler :=
  (tbl.find? (fun p => p.1 == k)).map (fun p => p.2)

/-- `self.error_handlers[key] = h`: dict assignment, overriding any earlier
entry for the same key (the new binding is found first). -/
def register_handler (tbl : List ((String × Nat) × Handler)) (k : String × Nat)
    (h : Handler) : List ((String × Nat) × Handler) :=
  (k, h) :: tbl

/-- The two-step handler lookup of `BaseClient.handle_error`
(`base.py` lines 101-103): the exact `(method, status_code)` key first, the
`("", status_code)` wildcard if the first lookup found nothing. -/
def selected_handler (tbl : List ((String × Nat) × Handler)) (method : String)
    (status : Nat) : Option Handler :=
  match tbl_get tbl (method, status) with
  | some h => some h
  | Option.none => tbl_get tbl ("", status)

/-- `BaseClient.handle_error` (`base.py` lines 100-105).  The source looks a
handler up but never invokes it: when a handler is found the function falls
off the end and returns `None`; only when no handler exists does it raise
`ApiError(str(response))`.  The pair threads the client state, which the
method never assigns to. -/
def handle_error (c : BaseClient) (method : String) (r : Response) :
    Except Raised Value × BaseClient :=
  match selected_handler c.error_handlers method r.status_code with
  | some _ => (Except.ok Value.none, c)
  | Option.none => (Except.error ⟨.apiError (str_response r), Option.none⟩, c)

/-- `BaseClient._filter_params` (`base.py` lines 107-114).  A falsy `params`
(`None` or the empty dict) is returned unchanged; otherwise the dict
comprehension keeps an entry `(k, v)` iff `v != self or (skip and v in skip)`,
where `self` is the receiver (`Value.client`). -/
def _filter_params (_c : BaseClient) (params : Option (List (String × Value)))
    (skip : Option (List Value)) : Option (List (String × Value)) :=
  match params with
  | Option.none => Option.none
  | some kvs =>
    if kvs.isEmpty then some kvs
    else some (kvs.filter (fun kv =>
      kv.2 != Value.client ||
        (match skip with
         | some l => !l.isEmpty && l.contains kv.2
         | Option.none => false)))

/-- The value a `Optional[Type]` argument contributes to the `skip` tuple of
`_filter_params`: `None` or the class object itself. -/
def cls_value : Option Cls → Value
  | Option.none => Value.none
  | some cl => Value.cls cl

/-- The `if body_class: body = self.factory.dump(body, body_class)` step of
`BaseClient.request` (`base.py` lines 122-123). -/
def dumped_body (f : Factory) (body : Value) (body_class : Option Cls) : Value :=
  match body_class with
  | some bc => f.dump body bc
  | Option.none => body

/-- `BaseClient.request` (`base.py` lines 116-148): composes the full URL,
serializes the body when a body class is declared, filters the query
parameters against the `(result_class, body_class)` skip tuple, invokes the
session, and routes the outcome.  A connection failure is wrapped as
`ApiError("RequestException")` with the original as cause; a non-ok response
is delegated to `handle_error`, whose return value is returned; a success
body that fails to decode is wrapped as `ApiError("Cannot decode response")`;
otherwise the parsed JSON is loaded through the factory when a result class
is declared and returned raw when not.  The pair threads the client state,
which the method never assigns to. -/
def request (c : BaseClient) (url : String) (method : String)
    (params : Option (List (String × Value))) (body : Value)
    (body_class : Option Cls) (result_class : Option Cls) :
    Except Raised Value × BaseClient :=
  let full_url := c.base_url ++ "/" ++ url
  match c.session method full_url
      (_filter_params c params (some [cls_value result_class, cls_value body_class]))
      (dumped_body c.factory body body_class) with
  | .connError e =>
      (Except.error ⟨.apiError "RequestException", some (.requestException e)⟩, c)
  | .resp r =>
      if !r.ok then
        handle_error c method r
      else
        match r.jsonBody with
        | Except.error e =>
            (Except.error ⟨.apiError "Cannot decode response",
                some (.jsonDecodeError e)⟩, c)
        | Except.ok result =>
            match result_class with
            | some rc => (c.factory.load result rc, c)
            | Option.none => (Except.ok result, c)

/-- A URL template in the parsed form produced by
`string.Formatter().parse(url_format)`: a sequence of literal pieces and
`\x7bname\x7d` placeholders. -/
inductive Seg where
  | lit (s : String)
  | hole (name : String)
deriving DecidableEq, Repr

/-- The placeholder names of a template — the field-name components of the
parse (`[x[1] for x in parsed_format]`); the `None` components contributed by
trailing literal segments are inert in every later membership test and are
omitted. -/
def tpl_holes (tpl : List Seg) : List String :=
  tpl.filterMap (fun s => match s with
    | .hole n => some n
    | .lit _ => Option.none)

/-- A method declaration as `inspect` exposes it to the decorator: the
positional parameter names (the receiver first), the default values aligned
with the trailing parameters, the parameter annotations, and the return
annotation.  The source methods use plain positional-or-keyword parameters
only. -/
structure FuncDecl where
  name : String
  args : List String
  defaults : List Value
  annotations : List (String × Cls)
  returnAnn : Option Cls

/-- `create_args_class` (`base.py` lines 69-80): the fields of the per-method
args `TypedDict` — every declared parameter except the receiver (the first
one) and the skipped names, each with its annotation, defaulting to `Any`. -/
def create_args_class (func : FuncDecl) (skipped : List String) :
    List (String × Cls) :=
  (func.args.drop 1).filterMap (fun x =>
    if skipped.contains x then Option.none
    else some (x, (lookupStr func.annotations x).getD Cls.any))

/-- The compiled route closed over by the method wrapper: everything the
decorator body of `rest` computes at declaration time
(`base.py` lines 27-34). -/
structure Route where
  url_format : List Seg
  method : String
  body_name : String
  func : FuncDecl
  result_class : Option Cls
  body_class : Option Cls
  args_class : List (String × Cls)

/-- The declaration-time body of the `rest` decorator
(`base.py` lines 26-34): reads the return and body annotations, parses the
template, collects the skipped names (the placeholders plus the body name)
and builds the args class.  It performs no validation and cannot fail. -/
def rest (url_format : List Seg) (method : String) (body_name : String)
    (func : FuncDecl) : Route :=
  { url_format := url_format
    method := method
    body_name := body_name
    func := func
    result_class := func.returnAnn
    body_class := lookupStr func.annotations body_name
    args_class := create_args_class func (tpl_holes url_format ++ [body_name]) }

/-- The `get` convenience decorator (`base.py` lines 49-50): verb GET, no
body parameter. -/
def get_decl (url_format : List Seg) (func : FuncDecl) : Route :=
  rest url_format "GET" "" func

/-- The `delete` convenience decorator (`base.py` lines 53-54): verb DELETE,
no body parameter. -/
def delete_decl (url_format : List Seg) (func : FuncDecl) : Route :=
  rest url_format "DELETE" "" func

/-- The `post` convenience decorator (`base.py` lines 65-66) at its default
body parameter name `"body"`. -/
def post_decl (url_format : List Seg) (func : FuncDecl) : Route :=
  rest url_format "POST" "body" func

/-- The `put` convenience decorator (`base.py` lines 61-62) at its default
body parameter name `"body"`. -/
def put_decl (url_format : List Seg) (func : FuncDecl) : Route :=
  rest url_format "PUT" "body" func

/-- The `patch` convenience decorator (`base.py` lines 57-58) at its default
body parameter name `"body"`. -/
def patch_decl (url_format : List Seg) (func : FuncDecl) : Route :=
  rest url_format "PATCH" "body" func

/-- The positional-name/default association `inspect.getcallargs` draws
defaults from: the trailing parameters paired with the declared defaults. -/
def default_map (args : List String) (defaults : List Value) :
    List (String × Value) :=
  (args.drop (args.length - defaults.length)).zip defaults

/-- The binding loop of `inspect.getcallargs`: each parameter in declaration
order takes the next positional argument while any remain, then its keyword
argument, then its default; a parameter with none of the three is a
`TypeError`. -/
def bind_names (names : List String) (pos : List Value)
    (kw dmap : List (String × Value)) : Except Raised (List (String × Value)) :=
  match names, pos with
  | [], _ => Except.ok []
  | n :: ns, v :: ps =>
      (bind_names ns ps kw dmap).map (fun rest => (n, v) :: rest)
  | n :: ns, [] =>
      match lookupStr kw n with
      | some v => (bind_names ns [] kw dmap).map (fun rest => (n, v) :: rest)
      | Option.none =>
          match lookupStr dmap n with
          | some v => (bind_names ns [] kw dmap).map (fun rest => (n, v) :: rest)
          | Option.none =>
              Except.error ⟨.typeError ("missing a required argument: " ++ n),
                Option.none⟩

/-- `inspect.getcallargs(func, *pos, **kw)` for a function of plain
positional-or-keyword parameters: rejects surplus positional arguments,
unknown keywords, and keywords duplicating a positionally-filled parameter,
then binds every parameter in declaration order. -/
def getcallargs (func : FuncDecl) (pos : List Value)
    (kw : List (String × Value)) : Except Raised (List (String × Value)) :=
  if func.args.length < pos.length then
    Except.error ⟨.typeError (func.name ++ " takes too many positional arguments"),
      Option.none⟩
  else if kw.any (fun p => !func.args.contains p.1) then
    Except.error ⟨.typeError (func.name ++ " got an unexpected keyword argument"),
      Option.none⟩
  else if (func.args.take pos.length).any (fun n => (lookupStr kw n).isSome) then
    Except.error ⟨.typeError (func.name ++ " got multiple values for argument"),
      Option.none⟩
  else
    bind_names func.args pos kw (default_map func.args func.defaults)

/-- `url_format.format(**params)` over the parsed template: literal pieces
are emitted verbatim, each placeholder is replaced by the string form of the
value bound to its name, and a placeholder with no binding raises
`KeyError` at the first such occurrence. -/
def format_url (tpl : List Seg) (params : List (String × Value)) :
    Except Raised String :=
  match tpl with
  | [] => Except.ok ""
  | .lit s :: rest => (format_url rest params).map (fun r => s ++ r)
  | .hole n :: rest =>
      match lookupStr params n with
      | some v => (format_url rest params).map (fun r => Value.pyStr v ++ r)
      | Option.none => Except.error ⟨.keyError n, Option.none⟩

/-- Modelled from the spec: `factory.dump(params, args_class)` under the
Serializer contract — dumping a mapping at the structural args-shape type
produces the JSON mapping holding exactly the declared fields, each field
value dumped at its declared type. -/
def dump_args (f : Factory) (args_class : List (String × Cls))
    (params : List (String × Value)) : List (String × Value) :=
  args_class.filterMap (fun fld =>
    (lookupStr params fld.1).map (fun v => (fld.1, f.dump v fld.2)))

/-- The request arguments the method wrapper assembles before delegating to
`BaseClient.request` (`base.py` lines 41-42). -/
structure PreparedCall where
  url : String
  method : String
  params : List (String × Value)
  body : Value
  body_class : Option Cls
  result_class : Option Cls
deriving Repr

/-- The per-call front half of the wrapper `inner` (`base.py` lines 37-42):
bind the call arguments with `getcallargs` (the receiver passed
positionally first), format the URL from the bound parameters, re-dump the
bound parameters through the args class, and extract the body with
`params.get(body_name)` — a plain `dict.get`, yielding `None` when the key
is absent — from the re-dumped mapping. -/
def inner_build (route : Route) (c : BaseClient) (args : List Value)
    (kwargs : List (String × Value)) : Except Raised PreparedCall :=
  match getcallargs route.func (Value.client :: args) kwargs with
  | Except.error e => Except.error e
  | Except.ok params =>
    match format_url route.url_format params with
    | Except.error e => Except.error e
    | Except.ok url =>
      let params := dump_args c.factory route.args_class params
      Except.ok
        { url := url
          method := route.method
          params := params
          body := (lookupStr params route.body_name).getD Value.none
          body_class := route.body_class
          result_class := route.result_class }

/-- The full method wrapper `inner` (`base.py` lines 36-42): assemble the
call and delegate to `BaseClient.request`; binding and formatting failures
propagate, leaving the client untouched. -/
def inner (route : Route) (c : BaseClient) (args : List Value)
    (kwargs : List (String × Value)) : Except Raised Value × BaseClient :=
  match inner_build route c args kwargs with
  | Except.error e => (Except.error e, c)
  | Except.ok p =>
      request c p.url p.method (some p.params) p.body p.body_class p.result_class

/-- Spec-side rendering of a template ("the built URL is the template with
each placeholder replaced by the string form of the value bound to it"),
written from the words of the specification to compare with `format_url`. -/
def render_tpl (tpl : List Seg) (params : List (String × Value)) : String :=
  match tpl with
  | [] => ""
  | .lit s :: rest => s ++ render_tpl rest params
  | .hole n :: rest =>
      ((lookupStr params n).getD Value.none).pyStr ++ render_tpl rest params

/-! Concrete fixtures used by the witness and counterexample theorems. -/

/-- A serializer whose `load` and `dump` are the identity on the modelled
JSON values. -/
def id_factory : Factory :=
  ⟨fun v _ => Except.ok v, fun v _ => v⟩

/-- A transport that always answers 200 with JSON `null`. -/
def ok_session : Session :=
  fun _ _ _ _ => .resp ⟨true, 200, Except.ok Value.none⟩

/-- A transport that always answers a non-ok response with the given status
code. -/
def status_session (code : Nat) : Session :=
  fun _ _ _ _ => .resp ⟨false, code, Except.ok Value.none⟩

/-- A transport that always raises a connection-level `RequestException`. -/
def fail_session (e : String) : Session :=
  fun _ _ _ _ => .connError e

/-- A transport that answers 200 with a body that is not valid JSON. -/
def badjson_session (e : String) : Session :=
  fun _ _ _ _ => .resp ⟨true, 200, Except.error e⟩

/-- A transport that answers 200 with the given JSON value. -/
def json_session (v : Value) : Session :=
  fun _ _ _ _ => .resp ⟨true, 200, Except.ok v⟩

/-- A freshly-constructed client with the default handler table. -/
def default_client : BaseClient :=
  BaseClient.init "http://h/" ok_session id_factory

/-- A default client whose transport always answers 404. -/
def client404 : BaseClient :=
  BaseClient.init "http://h" (status_session 404) id_factory

/-- A default client whose transport always fails at the connection level. -/
def conn_fail_client : BaseClient :=
  BaseClient.init "http://h" (fail_session "boom") id_factory

/-- A default client whose transport answers 200 with an undecodable body. -/
def badjson_client : BaseClient :=
  BaseClient.init "http://h" (badjson_session "garbage") id_factory

/-- A default client whose transport answers 200 with the JSON number 7. -/
def json_client7 : BaseClient :=
  BaseClient.init "http://h" (json_session (Value.int 7)) id_factory

/-- A non-ok 404 response. -/
def resp404 : Response := ⟨false, 404, Except.ok Value.none⟩

/-- A non-ok 500 response. -/
def resp500 : Response := ⟨false, 500, Except.ok Value.none⟩

/-- A class object used as a result-class sentinel in examples. -/
def vR : Value := Value.cls (Cls.named "R")

/-- The declared body class of the example POST method. -/
def todo_cls : Cls := Cls.named "Todo"

/-- Declaration of `create_todo(self, body: Todo)`. -/
def todo_func : FuncDecl :=
  ⟨"create_todo", ["self", "body"], [], [("body", todo_cls)], Option.none⟩

/-- The route compiled from `@post("todo")` applied to `create_todo`. -/
def todo_route : Route := post_decl [Seg.lit "todo"] todo_func

/-- Declaration of `get_item(self)` — no parameter matches the template
placeholder used with it. -/
def missing_func : FuncDecl :=
  ⟨"get_item", ["self"], [], [], Option.none⟩

/-- The template `todo/\x7bmissing\x7d`, whose placeholder names no declared
parameter of `missing_func`. -/
def missing_tpl : List Seg := [Seg.lit "todo/", Seg.hole "missing"]

/-- The route compiled from declaring `get_item` under `missing_tpl`. -/
def missing_route : Route := get_decl missing_tpl missing_func

/-- Declaration of `get_user(self, id, verbose=False)`. -/
def user_func : FuncDecl :=
  ⟨"get_user", ["self", "id", "verbose"], [Value.bool false], [], Option.none⟩

/-- The template `user/\x7bid\x7d`. -/
def user_tpl : List Seg := [Seg.lit "user/", Seg.hole "id"]

/-- The route compiled from `@get("user/\x7bid\x7d")` applied to
`get_user`. -/
def user_route : Route := get_decl user_tpl user_func

/-! Helper lemmas shared by the claim theorems. -/

theorem lookupStr_eq_none {α : Type} {l : List (String × α)} {k : String}
    (h : ∀ p ∈ l, p.1 ≠ k) : lookupStr l k = Option.none := by
  unfold lookupStr
  have hf : l.find? (fun p => p.1 == k) = Option.none :=
    List.find?_eq_none.mpr (fun p hp => by simpa using h p hp)
  rw [hf]
  rfl

theorem mem_dump_args {f : Factory} {ac : List (String × Cls)}
    {params : List (String × Value)} {p : String × Value}
    (h : p ∈ dump_args f ac params) : ∃ q ∈ ac, p.1 = q.1 := by
  unfold dump_args at h
  rw [List.mem_filterMap] at h
  obtain ⟨q, hq, hg⟩ := h
  rw [Option.map_eq_some'] at hg
  obtain ⟨v, _, hv⟩ := hg
  exact ⟨q, hq, by rw [← hv]⟩

theorem mem_create_args_class {func : FuncDecl} {skipped : List String}
    {q : String × Cls} (h : q ∈ create_args_class func skipped) :
    ¬ q.1 ∈ skipped := by
  unfold create_args_class at h
  rw [List.mem_filterMap] at h
  obtain ⟨x, _, hg⟩ := h
  by_cases hc : skipped.contains x = true
  · rw [if_pos hc] at hg
    exact Option.noConfusion hg
  · rw [if_neg hc] at hg
    cases hg
    simpa [List.contains, List.elem_iff] using hc

/-- A parameter name outside the args class never appears in the re-dumped
parameter mapping. -/
theorem dump_args_skipped_name (tpl : List Seg) (method body_name : String)
    (func : FuncDecl) (f : Factory) (params : List (String × Value)) :
    lookupStr
        (dump_args f (rest tpl method body_name func).args_class params)
        body_name
      = Option.none := by
  apply lookupStr_eq_none
  intro p hp
  obtain ⟨q, hq, hpq⟩ := mem_dump_args hp
  have hns : ¬ q.1 ∈ (tpl_holes tpl ++ [body_name]) := mem_create_args_class hq
  intro hk
  exact hns (by simp [← hpq, hk])

/-! The claim theorems. -/

/-- Claim C1 (code bug evidence): with the default handler table, the error
router does not raise on a 404 response — `handle_error` looks the wildcard
handler up but never invokes it and returns `None`, for GET and DELETE alike,
and the full dispatch of a 404 therefore returns `None` normally; yet the
installed `_handle_404` handler itself, were it invoked, raises
`NotFoundError`. -/
theorem c1_handle_error_returns_normally :
    (handle_error default_client "GET" resp404).1 = Except.ok Value.none ∧
    (handle_error default_client "DELETE" resp404).1 = Except.ok Value.none ∧
    (request client404 "todo" "GET" Option.none Value.none Option.none
        Option.none).1 = Except.ok Value.none ∧
    _handle_404 resp404 = Except.error ⟨PyErr.notFoundError, Option.none⟩ :=
  ⟨rfl, rfl, rfl, rfl⟩

/-- Claim C2 counterexample: with the skip sentinels `(R, None)`, the filter
keeps the entry whose value is the sentinel `R` — the claim says exactly such
entries are dropped — and instead drops the entry whose value is the client
object, which the claim says is kept. -/
theorem c2_counterexample :
    _filter_params default_client
        (some [("a", vR), ("b", Value.client)]) (some [vR, Value.none])
      = some [("a", vR)] ∧
    _filter_params default_client
        (some [("a", vR), ("b", Value.client)]) (some [vR, Value.none])
      ≠ some [("b", Value.client)] := by
  exact ⟨rfl, by decide⟩

/-- Claim C2 as amended: on a non-`None` mapping and a non-empty skip tuple,
the filtering step drops exactly those entries whose value is identical to
the client instance itself and not among the skip sentinels; every other
entry — including entries whose value equals a skip sentinel — is kept. -/
theorem c2_amended_filter (c : BaseClient) (kvs : List (String × Value))
    (skip : List Value) (k : String) (v : Value) (hs : skip ≠ []) :
    ∃ out, _filter_params c (some kvs) (some skip) = some out ∧
      ((k, v) ∈ out ↔ (k, v) ∈ kvs ∧ (v ≠ Value.client ∨ v ∈ skip)) := by
  by_cases he : kvs.isEmpty
  · refine ⟨kvs, by simp [_filter_params, he], ?_⟩
    rw [List.isEmpty_iff] at he
    subst he
    simp
  · have hsb : skip.isEmpty = false := by
      cases skip with
      | nil => exact absurd rfl hs
      | cons a l => rfl
    refine ⟨List.filter (fun kv =>
        kv.2 != Value.client || (!skip.isEmpty && skip.contains kv.2)) kvs,
      ?_, ?_⟩
    · simp only [_filter_params]
      rw [if_neg he]
    · rw [List.mem_filter]
      constructor
      · rintro ⟨hmem, hp⟩
        refine ⟨hmem, ?_⟩
        simpa [hsb, bne_iff_ne, List.contains, List.elem_iff] using hp
      · rintro ⟨hmem, hp⟩
        refine ⟨hmem, ?_⟩
        simpa [hsb, bne_iff_ne, List.contains, List.elem_iff] using hp

/-- Claim C2 amended, witness: a concrete mapping holding a sentinel-valued
entry is returned with that entry kept. -/
theorem c2_amended_filter_witness :
    ∃ out, _filter_params default_client (some [("a", vR)])
        (some [vR, Value.none]) = some out ∧
      (("a", vR) ∈ out ↔ ("a", vR) ∈ [("a", vR)] ∧
        (vR ≠ Value.client ∨ vR ∈ [vR, Value.none])) :=
  c2_amended_filter default_client [("a", vR)] [vR, Value.none] "a" vR
    (by decide)

/-- Claim C4 (code bug evidence): for the method `create_todo(self, body:
Todo)` declared via `post "todo"`, the call with body `"payload"` hands the
transport a query mapping without the body entry (first conjunct: the
prepared params are empty, so the body value is indeed excluded from the
query parameters), but the value it passes as the request body is `None`,
not the serialized `"payload"` — `params.get(body_name)` runs after the
bound arguments were re-dumped through the args class, which always omits
the body name (second, general conjunct). -/
theorem c4_body_never_sent :
    inner_build todo_route default_client [Value.str "payload"] []
      = Except.ok ⟨"todo", "POST", [], Value.none, some todo_cls, Option.none⟩ ∧
    (∀ (tpl : List Seg) (method body_name : String) (func : FuncDecl)
        (f : Factory) (params : List (String × Value)),
      lookupStr
          (dump_args f (rest tpl method body_name func).args_class params)
          body_name
        = Option.none) :=
  ⟨rfl, dump_args_skipped_name⟩

/-- Claim C5: handler selection for a non-2xx response consults the exact
`(verb, statusCode)` key first, falls back to the `("", statusCode)` wildcard
only when the exact key is absent, raises the base `ApiError` carrying the
string representation of the response when neither entry exists, and a
registered exact entry takes precedence over whatever was in the table. -/
theorem c5_lookup_order (c : BaseClient) (v : String) (r : Response) :
    (∀ h, tbl_get c.error_handlers (v, r.status_code) = some h →
        selected_handler c.error_handlers v r.status_code = some h) ∧
    (tbl_get c.error_handlers (v, r.status_code) = Option.none →
        selected_handler c.error_handlers v r.status_code
          = tbl_get c.error_handlers ("", r.status_code)) ∧
    (tbl_get c.error_handlers (v, r.status_code) = Option.none →
      tbl_get c.error_handlers ("", r.status_code) = Option.none →
        (handle_error c v r).1
          = Except.error ⟨.apiError (str_response r), Option.none⟩) ∧
    (∀ (tbl : List ((String × Nat) × Handler)) (h : Handler),
        selected_handler (register_handler tbl (v, r.status_code) h)
            v r.status_code = some h) := by
  refine ⟨?_, ?_, ?_, ?_⟩
  · intro h hh
    simp [selected_handler, hh]
  · intro hn
    simp [selected_handler, hn]
  · intro hn hw
    simp [handle_error, selected_handler, hn, hw]
  · intro tbl h
    simp [selected_handler, register_handler, tbl_get]

/-- Claim C5 witness: on the default table the wildcard entry is selected for
a bare 404, a GET 500 falls through the absent exact key to the (absent)
wildcard, and with no entry at all the base `ApiError` with the response
representation is raised; a freshly registered exact handler is selected. -/
theorem c5_lookup_order_witness :
    selected_handler default_client.error_handlers "" 404 = some _handle_404 ∧
    selected_handler default_client.error_handlers "GET" 500
      = tbl_get default_client.error_handlers ("", 500) ∧
    (handle_error default_client "GET" resp500).1
      = Except.error ⟨.apiError "<Response [500]>", Option.none⟩ ∧
    selected_handler
        (register_handler default_client.error_handlers ("GET", 404)
          _handle_404) "GET" 404
      = some _handle_404 :=
  ⟨(c5_lookup_order default_client "" resp404).1 _handle_404 rfl,
   (c5_lookup_order default_client "GET" resp500).2.1 rfl,
   (c5_lookup_order default_client "GET" resp500).2.2.1 rfl rfl,
   (c5_lookup_order default_client "GET" resp404).2.2.2
     default_client.error_handlers _handle_404⟩

/-- Claim C6: when the transport raises a connection-level failure, the
dispatcher raises `ApiError` whose message is exactly "RequestException" and
whose cause is the original transport error; nothing else escapes. -/
theorem c6_connection_failure_wrapped (c : BaseClient) (url method : String)
    (params : Option (List (String × Value))) (body : Value)
    (bc rc : Option Cls) (e : String)
    (h : c.session method (c.base_url ++ "/" ++ url)
          (_filter_params c params (some [cls_value rc, cls_value bc]))
          (dumped_body c.factory body bc)
        = TransportOutcome.connError e) :
    (request c url method params body bc rc).1
      = Except.error ⟨.apiError "RequestException",
          some (.requestException e)⟩ := by
  simp only [request]
  rw [h]

/-- Claim C6 witness: a client whose transport always fails with "boom"
raises the wrapped `ApiError` with the original failure as cause. -/
theorem c6_connection_failure_wrapped_witness :
    (request conn_fail_client "x" "GET" Option.none Value.none Option.none
        Option.none).1
      = Except.error ⟨.apiError "RequestException",
          some (.requestException "boom")⟩ :=
  c6_connection_failure_wrapped conn_fail_client "x" "GET" Option.none
    Value.none Option.none Option.none "boom" rfl

/-- Claim C7: when the transport returns a success response whose body fails
to parse as JSON, the dispatcher raises `ApiError` with message exactly
"Cannot decode response", wrapping the decode failure as its cause. -/
theorem c7_decode_failure_wrapped (c : BaseClient) (url method : String)
    (params : Option (List (String × Value))) (body : Value)
    (bc rc : Option Cls) (code : Nat) (e : String)
    (h : c.session method (c.base_url ++ "/" ++ url)
          (_filter_params c params (some [cls_value rc, cls_value bc]))
          (dumped_body c.factory body bc)
        = TransportOutcome.resp ⟨true, code, Except.error e⟩) :
    (request c url method params body bc rc).1
      = Except.error ⟨.apiError "Cannot decode response",
          some (.jsonDecodeError e)⟩ := by
  simp only [request]
  rw [h]
  rfl

/-- Claim C7 witness: a client whose transport answers 200 with an
undecodable body raises the wrapped `ApiError`. -/
theorem c7_decode_failure_wrapped_witness :
    (request badjson_client "x" "GET" Option.none Value.none Option.none
        Option.none).1
      = Except.error ⟨.apiError "Cannot decode response",
          some (.jsonDecodeError "garbage")⟩ :=
  c7_decode_failure_wrapped badjson_client "x" "GET" Option.none Value.none
    Option.none Option.none 200 "garbage" rfl

/-- Claim C8: on a success response with parseable JSON body `v`, a call with
a declared result class returns exactly the object the serializer load
yields for `v`, and a call with no declared result class returns the raw
parsed JSON `v` unchanged. -/
theorem c8_success_decoding (c : BaseClient) (url method : String)
    (params : Option (List (String × Value))) (body : Value)
    (bc : Option Cls) (code : Nat) (v : Value) :
    (∀ rc o,
      c.session method (c.base_url ++ "/" ++ url)
          (_filter_params c params (some [cls_value (some rc), cls_value bc]))
          (dumped_body c.factory body bc)
        = TransportOutcome.resp ⟨true, code, Except.ok v⟩ →
      c.factory.load v rc = Except.ok o →
      (request c url method params body bc (some rc)).1 = Except.ok o) ∧
    (c.session method (c.base_url ++ "/" ++ url)
          (_filter_params c params (some [cls_value Option.none, cls_value bc]))
          (dumped_body c.factory body bc)
        = TransportOutcome.resp ⟨true, code, Except.ok v⟩ →
      (request c url method params body bc Option.none).1 = Except.ok v) := by
  constructor
  · intro rc o hs hl
    simp only [request]
    rw [hs]
    simp [hl]
  · intro hs
    simp only [request]
    rw [hs]
    rfl

/-- Claim C8 witness: with an identity serializer and a transport answering
the JSON number 7, the call returns 7 both with and without a declared
result class. -/
theorem c8_success_decoding_witness :
    (request json_client7 "x" "GET" Option.none Value.none Option.none
        (some (Cls.named "T"))).1 = Except.ok (Value.int 7) ∧
    (request json_client7 "x" "GET" Option.none Value.none Option.none
        Option.none).1 = Except.ok (Value.int 7) :=
  ⟨(c8_success_decoding json_client7 "x" "GET" Option.none Value.none
      Option.none 200 (Value.int 7)).1 (Cls.named "T") (Value.int 7) rfl rfl,
   (c8_success_decoding json_client7 "x" "GET" Option.none Value.none
      Option.none 200 (Value.int 7)).2 rfl⟩

/-! Lemmas about argument binding and URL formatting. -/

theorem bind_names_keys {names : List String} {pos : List Value}
    {kw dmap L : List (String × Value)}
    (h : bind_names names pos kw dmap = Except.ok L) :
    L.map Prod.fst = names := by
  induction names generalizing pos L with
  | nil =>
    cases pos <;> · unfold bind_names at h; cases h; rfl
  | cons n ns ih =>
    cases pos with
    | cons v ps =>
      unfold bind_names at h
      cases hb : bind_names ns ps kw dmap with
      | error e => rw [hb] at h; exact Except.noConfusion h
      | ok rest =>
        rw [hb] at h
        cases h
        simp [ih hb]
    | nil =>
      unfold bind_names at h
      cases hk : lookupStr kw n with
      | some v =>
        rw [hk] at h
        cases hb : bind_names ns [] kw dmap with
        | error e => rw [hb] at h; exact Except.noConfusion h
        | ok rest =>
          rw [hb] at h
          cases h
          simp [ih hb]
      | none =>
        rw [hk] at h
        cases hd : lookupStr dmap n with
        | some v =>
          rw [hd] at h
          cases hb : bind_names ns [] kw dmap with
          | error e => rw [hb] at h; exact Except.noConfusion h
          | ok rest =>
            rw [hb] at h
            cases h
            simp [ih hb]
        | none =>
          rw [hd] at h
          exact Except.noConfusion h

theorem getcallargs_keys {func : FuncDecl} {pos : List Value}
    {kw L : List (String × Value)}
    (h : getcallargs func pos kw = Except.ok L) :
    L.map Prod.fst = func.args := by
  unfold getcallargs at h
  split_ifs at h
  exact bind_names_keys h

theorem lookupStr_eq_none_of_not_mem {α : Type} {l : List (String × α)}
    {k : String} (h : ¬ k ∈ l.map Prod.fst) : lookupStr l k = Option.none :=
  lookupStr_eq_none (fun p hp hk =>
    h (by rw [← hk]; exact List.mem_map_of_mem Prod.fst hp))

theorem lookupStr_isSome_of_mem {α : Type} {l : List (String × α)}
    {k : String} (h : k ∈ l.map Prod.fst) : (lookupStr l k).isSome = true := by
  induction l with
  | nil => simp at h
  | cons p rest ih =>
    by_cases hk : p.1 = k
    · simp [lookupStr, List.find?, hk]
    · rw [List.map_cons] at h
      rcases List.mem_cons.mp h with h' | h'
      · exact absurd h'.symm hk
      · have htail := ih h'
        unfold lookupStr at htail ⊢
        rw [List.find?_cons_of_neg _ (by simpa using hk)]
        exact htail

/-- When some placeholder of the template has no binding, formatting raises
`KeyError` at the first such placeholder. -/
theorem format_url_missing {tpl : List Seg} {params : List (String × Value)}
    (h : ∃ p ∈ tpl_holes tpl, lookupStr params p = Option.none) :
    ∃ q ∈ tpl_holes tpl, lookupStr params q = Option.none ∧
      format_url tpl params = Except.error ⟨.keyError q, Option.none⟩ := by
  induction tpl with
  | nil => simp [tpl_holes] at h
  | cons s rest ih =>
    cases s with
    | lit str =>
      obtain ⟨q, hq, hn, hf⟩ := ih h
      refine ⟨q, hq, hn, ?_⟩
      simp only [format_url]
      rw [hf]
      rfl
    | hole n =>
      cases hk : lookupStr params n with
      | none =>
        refine ⟨n, List.mem_cons_self n (tpl_holes rest), hk, ?_⟩
        simp only [format_url]
        rw [hk]
      | some v =>
        have h' : ∃ t ∈ tpl_holes rest, lookupStr params t = Option.none := by
          obtain ⟨t, ht, htn⟩ := h
          rcases List.mem_cons.mp ht with rfl | hmem
          · rw [hk] at htn; exact Option.noConfusion htn
          · exact ⟨t, hmem, htn⟩
        obtain ⟨q, hq, hn', hf⟩ := ih h'
        refine ⟨q, List.mem_cons_of_mem n hq, hn', ?_⟩
        simp only [format_url]
        rw [hk, hf]
        rfl

/-- Claim C3 counterexample: declaring `get_item(self)` under the template
`todo/\x7bmissing\x7d` does not fail — the decorator body computes a route
normally (no `RouteDefinitionError` exists anywhere in the code) — and the
failure instead surfaces on the first call, as a `KeyError` while formatting
the URL. -/
theorem c3_counterexample :
    rest missing_tpl "GET" "" missing_func
      = ⟨missing_tpl, "GET", "", missing_func, Option.none, Option.none, []⟩ ∧
    (inner missing_route default_client [] []).1
      = Except.error ⟨.keyError "missing", Option.none⟩ :=
  ⟨rfl, rfl⟩

/-- Claim C3 as amended: declaring a method whose URL template references a
placeholder that is not among the declared parameters succeeds at
declaration time; every call whose argument binding succeeds then fails at
call time, with a `KeyError` naming a template placeholder that no declared
parameter matches (no `RouteDefinitionError` exists in the code). -/
theorem c3_amended_call_time_failure (tpl : List Seg)
    (method body_name : String) (func : FuncDecl) (c : BaseClient)
    (args : List Value) (kw : List (String × Value)) (p : String)
    (hp : p ∈ tpl_holes tpl) (hnp : ¬ p ∈ func.args)
    (params : List (String × Value))
    (hbind : getcallargs func (Value.client :: args) kw = Except.ok params) :
    ∃ q, q ∈ tpl_holes tpl ∧ ¬ q ∈ func.args ∧
      (inner (rest tpl method body_name func) c args kw).1
        = Except.error ⟨.keyError q, Option.none⟩ := by
  have hkeys := getcallargs_keys hbind
  have hmiss : ∃ t ∈ tpl_holes tpl, lookupStr params t = Option.none :=
    ⟨p, hp, lookupStr_eq_none_of_not_mem (by rw [hkeys]; exact hnp)⟩
  obtain ⟨q, hq, hqn, hf⟩ := format_url_missing hmiss
  refine ⟨q, hq, ?_, ?_⟩
  · intro hqa
    have := lookupStr_isSome_of_mem (l := params) (k := q) (by rw [hkeys]; exact hqa)
    rw [hqn] at this
    exact Bool.noConfusion this
  · simp only [inner, inner_build, rest]
    simp only [hbind, hf]

/-- Claim C3 amended, witness: the concrete mis-declared route succeeds at
declaration and its call fails with the `KeyError` for `missing`. -/
theorem c3_amended_witness :
    ∃ q, q ∈ tpl_holes missing_tpl ∧ ¬ q ∈ missing_func.args ∧
      (inner (rest missing_tpl "GET" "" missing_func) default_client [] []).1
        = Except.error ⟨.keyError q, Option.none⟩ :=
  c3_amended_call_time_failure missing_tpl "GET" "" missing_func
    default_client [] [] "missing" (by simp [missing_tpl, tpl_holes])
    (by simp [missing_func]) [("self", Value.client)] rfl

theorem lookupStr_cons_self {α : Type} {rest : List (String × α)} {n : String}
    {w : α} : lookupStr ((n, w) :: rest) n = some w := by
  simp [lookupStr, List.find?]

theorem lookupStr_cons_ne {α : Type} {rest : List (String × α)}
    {m n : String} {w : α} (h : m ≠ n) :
    lookupStr ((n, w) :: rest) m = lookupStr rest m := by
  unfold lookupStr
  rw [List.find?_cons_of_neg _ (by simpa using fun he => h he.symm)]

theorem lookupStr_zip_eq_none {names : List String} {ws : List Value}
    {k : String} (h : ¬ k ∈ names) :
    lookupStr (names.zip ws) k = Option.none := by
  apply lookupStr_eq_none
  intro p hp hk
  exact h (hk ▸ (List.of_mem_zip hp).1)

/-- Keyword binding consults the keyword and default mappings only at the
parameter names. -/
theorem bind_names_ext {names : List String}
    {kw1 kw2 d1 d2 : List (String × Value)}
    (h : ∀ m ∈ names, lookupStr kw1 m = lookupStr kw2 m ∧
      lookupStr d1 m = lookupStr d2 m) :
    bind_names names [] kw1 d1 = bind_names names [] kw2 d2 := by
  induction names with
  | nil => rfl
  | cons n ns ih =>
    have hn := h n (List.mem_cons_self n ns)
    have hns := fun m hm => h m (List.mem_cons_of_mem n hm)
    unfold bind_names
    rw [hn.1, hn.2]
    cases hk : lookupStr kw2 n with
    | some v => rw [ih hns]
    | none =>
      cases hd : lookupStr d2 n with
      | some v => rw [ih hns]
      | none => rfl

/-- A fully positional call binds the parameters to the arguments in
declaration order. -/
theorem bind_names_all_pos {names : List String} {pos : List Value}
    {kw dmap : List (String × Value)} (h : names.length = pos.length) :
    bind_names names pos kw dmap = Except.ok (names.zip pos) := by
  induction names generalizing pos with
  | nil =>
    cases pos with
    | nil => rfl
    | cons v ps => simp at h
  | cons n ns ih =>
    cases pos with
    | nil => simp at h
    | cons v ps =>
      unfold bind_names
      rw [ih (by simpa using h)]
      rfl

/-- A fully keyword call over distinct parameter names binds the parameters
to their keyword arguments in declaration order. -/
theorem bind_names_all_kw {names : List String} {ws : List Value}
    {dmap : List (String × Value)}
    (hlen : names.length = ws.length) (hnd : names.Nodup) :
    bind_names names [] (names.zip ws) dmap = Except.ok (names.zip ws) := by
  induction names generalizing ws with
  | nil =>
    cases ws with
    | nil => rfl
    | cons w ws' => simp at hlen
  | cons n ns ih =>
    cases ws with
    | nil => simp at hlen
    | cons w ws' =>
      have hnotin : ¬ n ∈ ns := (List.nodup_cons.mp hnd).1
      have hext : bind_names ns [] ((n, w) :: ns.zip ws') dmap
          = bind_names ns [] (ns.zip ws') dmap :=
        bind_names_ext (fun m hm =>
          ⟨lookupStr_cons_ne (fun he => hnotin (he ▸ hm)), rfl⟩)
      unfold bind_names
      rw [show (n :: ns).zip (w :: ws') = (n, w) :: ns.zip ws' from rfl,
        lookupStr_cons_self, hext,
        ih (by simpa using hlen) (List.nodup_cons.mp hnd).2]
      rfl

/-- With no positional or keyword arguments left, distinct parameter names
are bound to their defaults in declaration order. -/
theorem bind_names_all_default {names : List String} {ws : List Value}
    (hlen : names.length = ws.length) (hnd : names.Nodup) :
    bind_names names [] [] (names.zip ws) = Except.ok (names.zip ws) := by
  induction names generalizing ws with
  | nil =>
    cases ws with
    | nil => rfl
    | cons w ws' => simp at hlen
  | cons n ns ih =>
    cases ws with
    | nil => simp at hlen
    | cons w ws' =>
      have hnotin : ¬ n ∈ ns := (List.nodup_cons.mp hnd).1
      have hext : bind_names ns [] [] ((n, w) :: ns.zip ws')
          = bind_names ns [] [] (ns.zip ws') :=
        bind_names_ext (fun m hm =>
          ⟨rfl, lookupStr_cons_ne (fun he => hnotin (he ▸ hm))⟩)
      unfold bind_names
      rw [show ((n :: ns).zip (w :: ws')) = (n, w) :: ns.zip ws' from rfl,
        lookupStr_cons_self, hext,
        ih (by simpa using hlen) (List.nodup_cons.mp hnd).2]
      rfl

/-- The positional prefix of a binding is consumed pairwise. -/
theorem bind_names_append_pos {req dnames : List String} {vs : List Value}
    {kw dmap : List (String × Value)} (hlen : req.length = vs.length) :
    bind_names (req ++ dnames) vs kw dmap
      = (bind_names dnames [] kw dmap).map
          (fun rest => req.zip vs ++ rest) := by
  induction req generalizing vs with
  | nil =>
    cases vs with
    | nil =>
      simp only [List.nil_append]
      cases hb : bind_names dnames [] kw dmap with
      | error e => rfl
      | ok rest => rfl
    | cons v ps => simp at hlen
  | cons n ns ih =>
    cases vs with
    | nil => simp at hlen
    | cons v ps =>
      rw [List.cons_append]
      simp only [bind_names]
      rw [ih (by simpa using hlen)]
      cases hb : bind_names dnames [] kw dmap with
      | error e => rfl
      | ok rest => rfl

/-- A call with exactly as many positional arguments as parameters binds
pairwise in declaration order. -/
theorem getcallargs_all_pos {func : FuncDecl} {pos : List Value}
    (hlen : func.args.length = pos.length) :
    getcallargs func pos [] = Except.ok (func.args.zip pos) := by
  unfold getcallargs
  rw [if_neg (by omega)]
  rw [if_neg (by simp)]
  rw [if_neg (by simp [lookupStr])]
  exact bind_names_all_pos hlen

/-- A call passing only the receiver positionally and every other argument
by keyword binds identically to the fully positional call. -/
theorem getcallargs_self_kw {fname a0 : String} {rest : List String}
    {fdefs : List Value} {fanns : List (String × Cls)} {fret : Option Cls}
    {vs : List Value}
    (hnd : (a0 :: rest).Nodup) (hlen : rest.length = vs.length) :
    getcallargs ⟨fname, a0 :: rest, fdefs, fanns, fret⟩ [Value.client]
        (rest.zip vs)
      = Except.ok ((a0 :: rest).zip (Value.client :: vs)) := by
  have ha0 : lookupStr (rest.zip vs) a0 = Option.none :=
    lookupStr_zip_eq_none (List.nodup_cons.mp hnd).1
  unfold getcallargs
  rw [if_neg (by simp)]
  rw [if_neg ?kwcheck]
  case kwcheck =>
    intro hx
    rw [List.any_eq_true] at hx
    obtain ⟨pq, hpq, hb⟩ := hx
    have hmem : pq.1 ∈ a0 :: rest :=
      List.mem_cons_of_mem a0 (List.of_mem_zip hpq).1
    simp [List.contains, List.elem_iff, hmem] at hb
  rw [if_neg (by simp [ha0])]
  show (bind_names (a0 :: rest) [Value.client] (rest.zip vs) _ = _)
  unfold bind_names
  rw [bind_names_all_kw hlen (List.nodup_cons.mp hnd).2]
  rfl

/-- Binding a fully positional call equals binding the call that passes the
same values by keyword instead. -/
theorem getcallargs_pos_eq_kw (func : FuncDecl) (vs : List Value)
    (hnd : func.args.Nodup) (hlen : func.args.length = vs.length + 1) :
    getcallargs func (Value.client :: vs) []
      = getcallargs func [Value.client] ((func.args.drop 1).zip vs) := by
  obtain ⟨fname, fargs, fdefs, fanns, fret⟩ := func
  simp only at hnd hlen ⊢
  cases fargs with
  | nil => simp at hlen
  | cons a0 rest =>
    have hlen' : rest.length = vs.length := by simpa using hlen
    rw [getcallargs_all_pos (by simpa using hlen)]
    rw [show ((a0 :: rest).drop 1) = rest from rfl]
    rw [getcallargs_self_kw hnd hlen']

/-- The whole method wrapper gives the same outcome on the fully positional
call and the corresponding fully keyword call. -/
theorem inner_pos_eq_kw (route : Route) (c : BaseClient) (vs : List Value)
    (hnd : route.func.args.Nodup)
    (hlen : route.func.args.length = vs.length + 1) :
    inner route c vs [] = inner route c [] ((route.func.args.drop 1).zip vs) := by
  simp only [inner, inner_build]
  rw [getcallargs_pos_eq_kw route.func vs hnd hlen]

/-- Parameters declared with defaults receive them when the call omits the
corresponding arguments. -/
theorem getcallargs_defaults_applied {fname : String} {req dnames : List String}
    {dvals : List Value} {fanns : List (String × Cls)} {fret : Option Cls}
    {vs : List Value}
    (hnd : (req ++ dnames).Nodup) (hreq : req.length = vs.length)
    (hdef : dnames.length = dvals.length) :
    getcallargs ⟨fname, req ++ dnames, dvals, fanns, fret⟩ vs []
      = Except.ok (req.zip vs ++ dnames.zip dvals) := by
  have hdm : default_map (req ++ dnames) dvals = dnames.zip dvals := by
    unfold default_map
    rw [List.length_append, hdef,
      show req.length + dvals.length - dvals.length = req.length by omega,
      List.drop_left]
  unfold getcallargs
  rw [if_neg (by simp only [List.length_append]; omega)]
  rw [if_neg (by simp)]
  rw [if_neg (by simp [lookupStr])]
  rw [hdm, bind_names_append_pos hreq,
    bind_names_all_default hdef hnd.of_append_right]
  rfl

/-- When every placeholder of the template is bound, formatting succeeds and
yields the spec-side rendering: each literal piece verbatim, each
placeholder replaced by the string form of its bound value. -/
theorem format_url_ok {tpl : List Seg} {params : List (String × Value)}
    (h : ∀ p ∈ tpl_holes tpl, (lookupStr params p).isSome = true) :
    format_url tpl params = Except.ok (render_tpl tpl params) := by
  induction tpl with
  | nil => rfl
  | cons s rest ih =>
    cases s with
    | lit str =>
      simp only [format_url, render_tpl]
      rw [ih h]
      rfl
    | hole n =>
      have hn := h n (List.mem_cons_self n (tpl_holes rest))
      cases hk : lookupStr params n with
      | none => rw [hk] at hn; exact Bool.noConfusion hn
      | some v =>
        simp only [format_url, render_tpl]
        rw [hk, ih (fun p hp => h p (List.mem_cons_of_mem n hp))]
        rfl

/-- Claim C9: (i) when every placeholder of a URL template is bound, the
built URL is the template with each placeholder replaced by the string form
of the value bound to it; (ii) binding a call that passes all non-receiver
arguments positionally equals binding the call that passes the same values
by name, and (iii) the whole method wrapper therefore behaves identically on
the two calls; (iv) parameters declared with defaults are bound to those
defaults when the call omits them. -/
theorem c9_url_building_and_binding :
    (∀ (tpl : List Seg) (params : List (String × Value)),
      (∀ p ∈ tpl_holes tpl, (lookupStr params p).isSome = true) →
      format_url tpl params = Except.ok (render_tpl tpl params)) ∧
    (∀ (func : FuncDecl) (vs : List Value),
      func.args.Nodup → func.args.length = vs.length + 1 →
      getcallargs func (Value.client :: vs) []
        = getcallargs func [Value.client] ((func.args.drop 1).zip vs)) ∧
    (∀ (route : Route) (c : BaseClient) (vs : List Value),
      route.func.args.Nodup → route.func.args.length = vs.length + 1 →
      inner route c vs []
        = inner route c [] ((route.func.args.drop 1).zip vs)) ∧
    (∀ (fname : String) (req dnames : List String) (dvals : List Value)
        (fanns : List (String × Cls)) (fret : Option Cls) (vs : List Value),
      (req ++ dnames).Nodup → req.length = vs.length →
      dnames.length = dvals.length →
      getcallargs ⟨fname, req ++ dnames, dvals, fanns, fret⟩ vs []
        = Except.ok (req.zip vs ++ dnames.zip dvals)) :=
  ⟨fun _ _ h => format_url_ok h,
   getcallargs_pos_eq_kw,
   inner_pos_eq_kw,
   fun _ _ _ _ _ _ _ hnd hreq hdef =>
     getcallargs_defaults_applied hnd hreq hdef⟩

/-- Claim C9 witness: for `get_user(self, id, verbose=False)` declared under
`user/\x7bid\x7d`, formatting yields the rendered URL, the positional call
`get_user(42, False)` binds and dispatches exactly like the keyword call
`get_user(id=42, verbose=False)`, and the call `get_user(self, 42)` that
omits `verbose` binds it to its default `False`. -/
theorem c9_url_building_and_binding_witness :
    format_url user_tpl
        [("self", Value.client), ("id", Value.int 42),
         ("verbose", Value.bool false)]
      = Except.ok (render_tpl user_tpl
          [("self", Value.client), ("id", Value.int 42),
           ("verbose", Value.bool false)]) ∧
    getcallargs user_func [Value.client, Value.int 42, Value.bool false] []
      = getcallargs user_func [Value.client]
          ((user_func.args.drop 1).zip [Value.int 42, Value.bool false]) ∧
    inner user_route default_client [Value.int 42, Value.bool false] []
      = inner user_route default_client []
          ((user_route.func.args.drop 1).zip
            [Value.int 42, Value.bool false]) ∧
    getcallargs ⟨"get_user", ["self", "id"] ++ ["verbose"],
        [Value.bool false], [], Option.none⟩ [Value.client, Value.int 42] []
      = Except.ok ((["self", "id"].zip [Value.client, Value.int 42])
          ++ (["verbose"].zip [Value.bool false])) :=
  ⟨c9_url_building_and_binding.1 user_tpl
     [("self", Value.client), ("id", Value.int 42),
      ("verbose", Value.bool false)] (by decide),
   c9_url_building_and_binding.2.1 user_func
     [Value.int 42, Value.bool false] (by decide) (by decide),
   c9_url_building_and_binding.2.2.1 user_route default_client
     [Value.int 42, Value.bool false] (by decide) (by decide),
   c9_url_building_and_binding.2.2.2 "get_user" ["self", "id"] ["verbose"]
     [Value.bool false] [] Option.none [Value.client, Value.int 42]
     (by decide) (by decide) (by decide)⟩

/-- Claim C10: the request dispatcher, the error router and the whole method
wrapper leave the client state — base URL, session, error-handler table and
factory — unchanged, whether their outcome is a return or a raise; the
query-parameter filter is a pure function of its arguments and touches no
state at all. -/
theorem c10_operations_preserve_client (c : BaseClient) (url method : String)
    (params : Option (List (String × Value))) (body : Value)
    (bc rc : Option Cls) (v : String) (r : Response) (route : Route)
    (args : List Value) (kwargs : List (String × Value)) :
    (request c url method params body bc rc).2 = c ∧
    (handle_error c v r).2 = c ∧
    (inner route c args kwargs).2 = c := by
  have hhe : ∀ (m : String) (rr : Response), (handle_error c m rr).2 = c := by
    intro m rr
    unfold handle_error
    cases selected_handler c.error_handlers m rr.status_code with
    | some h => rfl
    | none => rfl
  have hreq : ∀ (u m : String) (ps : Option (List (String × Value)))
      (b : Value) (bcc rcc : Option Cls),
      (request c u m ps b bcc rcc).2 = c := by
    intro u m ps b bcc rcc
    simp only [request]
    cases c.session m (c.base_url ++ "/" ++ u)
        (_filter_params c ps (some [cls_value rcc, cls_value bcc]))
        (dumped_body c.factory b bcc) with
    | connError e => rfl
    | resp rr =>
      by_cases ho : rr.ok = true
      · simp only [ho, Bool.not_true, Bool.false_eq_true, if_false]
        cases rr.jsonBody with
        | error e => rfl
        | ok result =>
          cases rcc with
          | some rcls => rfl
          | none => rfl
      · simp only [Bool.not_eq_true] at ho
        simp only [ho, Bool.not_false, if_true]
        exact hhe m rr
  refine ⟨hreq url method params body bc rc, hhe v r, ?_⟩
  unfold inner
  cases inner_build route c args kwargs with
  | error e => rfl
  | ok p =>
    exact hreq p.url p.method (some p.params) p.body p.body_class p.result_class

end DataclassRest
